import Mathlib

/-!
Shallow embedding of `src/simsopt/geo/qfmsurface.py` (class `QfmSurface`).

The surface's degrees of freedom are modelled as a `List ℚ`.  The external
collaborators (the magnetic-field model together with the residual evaluator
`QfmResidual` from `surfaceobjectives.py`, and the label functional) are
abstract: each is a structure of functions of the current dof vector, exactly
the interface the orchestrator consumes (`J`, `dJ_by_dsurfacecoefficients`,
`d2J_by_dsurfacecoefficientsdsurfacecoefficients`).

Each evaluation method of the Python class mutates the surface (via
`set_dofs`) and returns a scalar, optionally with gradient/Hessian; we model
this as explicit state passing: the method returns the result together with
the updated orchestrator state.  A failing `assert` is modelled as
`Except.error "AssertionError"`.
-/

/-- the external field model together with the residual evaluator machinery:
`QfmResidual(s, bs)` exposes `J`, `dJ_by_dsurfacecoefficients` and
`d2J_by_dsurfacecoefficientsdsurfacecoefficients`, all functions of the
surface's current dof vector. -/
structure BiotSavart where
  J : List ℚ → ℚ
  dJ : List ℚ → List ℚ
  d2J : List ℚ → List (List ℚ)

/-- evaluation record of a freshly constructed `QfmResidual(s, bs)`:
its three methods read the surface dofs current at construction time. -/
structure QfmResidualEval where
  J : ℚ
  dJ_by_dsurfacecoefficients : List ℚ
  d2J_by_dsurfacecoefficientsdsurfacecoefficients : List (List ℚ)

/-- `QfmResidual(s, bs)`: the residual evaluator constructed against the
surface dofs `s` and field model `bs`. -/
def QfmResidual (s : List ℚ) (bs : BiotSavart) : QfmResidualEval :=
  ⟨bs.J s, bs.dJ s, bs.d2J s⟩

/-- the external label functional: scalar label of the surface, its gradient
and Hessian with respect to the surface dofs. -/
structure LabelFunctional where
  J : List ℚ → ℚ
  dJ_by_dsurfacecoefficients : List ℚ → List ℚ
  d2J_by_dsurfacecoefficientsdsurfacecoefficients : List ℚ → List (List ℚ)

/-- the orchestrator state: `QfmSurface(biotsavart, surface, label,
targetlabel)`.  `surface` is the surface's (mutable) dof vector. -/
structure QfmSurface where
  bs : BiotSavart
  surface : List ℚ
  label : LabelFunctional
  targetlabel : ℚ

/-- `Surface.set_dofs`: overwrite the surface's dof vector. -/
def QfmSurface.set_dofs (self : QfmSurface) (x : List ℚ) : QfmSurface :=
  { self with surface := x }

/-- result of an evaluation call: a scalar, optionally paired with a gradient
and, for the penalty evaluator, a Hessian. -/
inductive EvalResult where
  | scalar (val : ℚ)
  | withGrad (val : ℚ) (grad : List ℚ)
  | withHess (val : ℚ) (grad : List ℚ) (hess : List (List ℚ))
  deriving DecidableEq

/-- elementwise sum of two numpy vectors. -/
def vecAdd (u v : List ℚ) : List ℚ := List.zipWith (· + ·) u v

/-- scalar times numpy vector. -/
def vecSmul (c : ℚ) (v : List ℚ) : List ℚ := v.map (fun a => c * a)

/-- elementwise sum of two numpy matrices. -/
def matAdd (A B : List (List ℚ)) : List (List ℚ) := List.zipWith vecAdd A B

/-- scalar times numpy matrix. -/
def matSmul (c : ℚ) (A : List (List ℚ)) : List (List ℚ) := A.map (vecSmul c)

/-- `dl[:, None] * dl[None, :]`: the outer product matrix. -/
def outerProduct (u v : List ℚ) : List (List ℚ) :=
  u.map (fun a => v.map (fun b => a * b))

/-- `QfmSurface.qfm_label_constraint(self, x, derivatives)`: asserts
`derivatives in [0, 1]`, sets the surface dofs to `x`, computes
`rl = label.J() - targetlabel` and returns `0.5 * rl ** 2`, with the
gradient `rl * label.dJ_by_dsurfacecoefficients()` when `derivatives` is
nonzero. -/
def QfmSurface.qfm_label_constraint (self : QfmSurface) (x : List ℚ)
    (derivatives : ℕ) : Except String (EvalResult × QfmSurface) :=
  if derivatives = 0 ∨ derivatives = 1 then
    let s := self.set_dofs x
    let l := s.label.J s.surface
    let rl := l - s.targetlabel
    let val := (1/2 : ℚ) * rl ^ 2
    if derivatives ≠ 0 then
      let dl := s.label.dJ_by_dsurfacecoefficients s.surface
      let dval := vecSmul rl dl
      .ok (.withGrad val dval, s)
    else
      .ok (.scalar val, s)
  else
    .error "AssertionError"

/-- `QfmSurface.qfm_objective(self, x, derivatives)`: asserts
`derivatives in [0, 1]`, sets the surface dofs to `x`, constructs
`QfmResidual(s, bs)` and returns its value `r = qfm.J()`, with the gradient
`qfm.dJ_by_dsurfacecoefficients()` when `derivatives` is 1. -/
def QfmSurface.qfm_objective (self : QfmSurface) (x : List ℚ)
    (derivatives : ℕ) : Except String (EvalResult × QfmSurface) :=
  if derivatives = 0 ∨ derivatives = 1 then
    let s := self.set_dofs x
    let qfm := QfmResidual s.surface s.bs
    let r := qfm.J
    if derivatives = 0 then
      .ok (.scalar r, s)
    else
      .ok (.withGrad r qfm.dJ_by_dsurfacecoefficients, s)
  else
    .error "AssertionError"

/-- `QfmSurface.qfm_penalty_constraints(self, x, derivatives,
constraint_weight)`: asserts `derivatives in [0, 1, 2]`, sets the surface
dofs to `x`, and returns `r + 0.5 * constraint_weight * rl**2` where
`r = qfm.J()` and `rl = label.J() - targetlabel`; at order 1 also the
gradient `dr + constraint_weight*rl*dl`; at order 2 also the Hessian
`d2r + constraint_weight*rl*d2l + constraint_weight*dl[:,None]*dl[None,:]`. -/
def QfmSurface.qfm_penalty_constraints (self : QfmSurface) (x : List ℚ)
    (derivatives : ℕ) (constraint_weight : ℚ) :
    Except String (EvalResult × QfmSurface) :=
  if derivatives = 0 ∨ derivatives = 1 ∨ derivatives = 2 then
    let s := self.set_dofs x
    let qfm := QfmResidual s.surface s.bs
    let r := qfm.J
    let l := s.label.J s.surface
    let rl := l - s.targetlabel
    let val := r + (1/2 : ℚ) * constraint_weight * rl ^ 2
    if derivatives = 0 then
      .ok (.scalar val, s)
    else
      let dr := qfm.dJ_by_dsurfacecoefficients
      let dl := s.label.dJ_by_dsurfacecoefficients s.surface
      let dval := vecAdd dr (vecSmul (constraint_weight * rl) dl)
      if derivatives = 1 then
        .ok (.withGrad val dval, s)
      else
        let d2r := qfm.d2J_by_dsurfacecoefficientsdsurfacecoefficients
        let d2l := s.label.d2J_by_dsurfacecoefficientsdsurfacecoefficients s.surface
        let d2val := matAdd (matAdd d2r (matSmul (constraint_weight * rl) d2l))
          (matSmul constraint_weight (outerProduct dl dl))
        .ok (.withHess val dval d2val, s)
  else
    .error "AssertionError"

/-- result object returned by the external solver `scipy.optimize.minimize`:
final iterate `x`, objective value `funv` (`res.fun`), gradient `jac`,
iteration count `nit`, success flag. -/
structure OptResult where
  x : List ℚ
  funv : ℚ
  jac : List ℚ
  nit : ℕ
  success : Bool
  deriving DecidableEq

/-- the dictionary each solver driver returns: keys `fun` (here `funv`),
`gradient`, `iter`, `info`, `success` and `s` (the surface, recorded by its
dof vector after the final `set_dofs(res.x)`). -/
structure ResDict where
  funv : ℚ
  gradient : List ℚ
  iter : ℕ
  info : OptResult
  success : Bool
  s : List ℚ
  deriving DecidableEq

/-- the closure `fun = lambda x: self.qfm_penalty_constraints(x,
derivatives=1, constraint_weight=constraint_weight)` handed to L-BFGS-B,
returning the (value, gradient) pair.  Order 1 always succeeds with a
gradient, so the catch-all branch is unreachable. -/
def QfmSurface.lbfgs_fun (self : QfmSurface) (constraint_weight : ℚ)
    (x : List ℚ) : ℚ × List ℚ :=
  match self.qfm_penalty_constraints x 1 constraint_weight with
  | .ok (.withGrad v g, _) => (v, g)
  | _ => (0, [])

/-- `QfmSurface.minimize_qfm_penalty_constraints_LBFGS`: reads the current
dofs, hands the order-1 penalty closure to the external unconstrained solver
(abstracted as the parameter `solver`), then sets the surface dofs to
`res.x` and returns the result dictionary together with the final state. -/
def QfmSurface.minimize_qfm_penalty_constraints_LBFGS (self : QfmSurface)
    (solver : (List ℚ → ℚ × List ℚ) → List ℚ → OptResult)
    (constraint_weight : ℚ) : ResDict × QfmSurface :=
  let x := self.surface
  let res := solver (self.lbfgs_fun constraint_weight) x
  let s := self.set_dofs res.x
  ({ funv := res.funv, gradient := res.jac, iter := res.nit, info := res,
     success := res.success, s := s.surface }, s)

/-- the closure `fun = lambda x: self.qfm_objective(x, derivatives=1)`
handed to SLSQP as the objective. -/
def QfmSurface.slsqp_fun (self : QfmSurface) (x : List ℚ) : ℚ × List ℚ :=
  match self.qfm_objective x 1 with
  | .ok (.withGrad v g, _) => (v, g)
  | _ => (0, [])

/-- the equality-constraint closure
`con = lambda x: self.qfm_label_constraint(x, derivatives=1)[0]`
handed to SLSQP: the value component of `qfm_label_constraint`. -/
def QfmSurface.slsqp_con (self : QfmSurface) (x : List ℚ) : ℚ :=
  match self.qfm_label_constraint x 1 with
  | .ok (.withGrad v _, _) => v
  | _ => 0

/-- the constraint-Jacobian closure
`dcon = lambda x: self.qfm_label_constraint(x, derivatives=1)[1]`. -/
def QfmSurface.slsqp_dcon (self : QfmSurface) (x : List ℚ) : List ℚ :=
  match self.qfm_label_constraint x 1 with
  | .ok (.withGrad _ g, _) => g
  | _ => []

/-- `QfmSurface.minimize_qfm_exact_constraints_SLSQP`: reads the current
dofs, hands the order-1 objective closure, the equality constraint `con` and
its Jacobian `dcon` to the external constrained solver (abstracted as the
parameter `solver`), then sets the surface dofs to `res.x` and returns the
result dictionary together with the final state. -/
def QfmSurface.minimize_qfm_exact_constraints_SLSQP (self : QfmSurface)
    (solver : (List ℚ → ℚ × List ℚ) → (List ℚ → ℚ) → (List ℚ → List ℚ) →
      List ℚ → OptResult) : ResDict × QfmSurface :=
  let x := self.surface
  let res := solver self.slsqp_fun self.slsqp_con self.slsqp_dcon x
  let s := self.set_dofs res.x
  ({ funv := res.funv, gradient := res.jac, iter := res.nit, info := res,
     success := res.success, s := s.surface }, s)

/-- a concrete field model used to exercise the evaluators. -/
def bsW : BiotSavart :=
  ⟨fun s => s.headD 0, fun _ => [2], fun _ => [[3]]⟩

/-- a concrete label functional used to exercise the evaluators. -/
def labW : LabelFunctional :=
  ⟨fun s => s.headD 0, fun _ => [5], fun _ => [[7]]⟩

/-- a concrete orchestrator used to exercise the evaluators. -/
def stW : QfmSurface := ⟨bsW, [9], labW, 0⟩

/-- a concrete unconstrained solver: returns the starting point together
with the objective data there, reporting non-convergence. -/
def solverU0 : (List ℚ → ℚ × List ℚ) → List ℚ → OptResult :=
  fun f x0 => ⟨x0, (f x0).1, (f x0).2, 0, false⟩

/-- a concrete constrained solver: returns the starting point together with
the objective data there, reporting non-convergence. -/
def solverC0 : (List ℚ → ℚ × List ℚ) → (List ℚ → ℚ) → (List ℚ → List ℚ) →
    List ℚ → OptResult :=
  fun f _ _ x0 => ⟨x0, (f x0).1, (f x0).2, 0, false⟩

/-- entry of an elementwise combination of two lists at an in-bounds index;
the defaults are irrelevant there. -/
theorem getD_zipWith {α β γ : Type} (f : α → β → γ) (da : α) (db : β)
    (dc : γ) :
    ∀ (u : List α) (v : List β) (i : ℕ), i < u.length → i < v.length →
      (List.zipWith f u v).getD i dc = f (u.getD i da) (v.getD i db)
  | _ :: _, _ :: _, 0, _, _ => rfl
  | _ :: u, _ :: v, i + 1, hu, hv =>
      getD_zipWith f da db dc u v i (Nat.lt_of_succ_lt_succ hu)
        (Nat.lt_of_succ_lt_succ hv)
  | [], _, i, hu, _ => absurd hu (by simp)
  | _ :: _, [], i, _, hv => absurd hv (by simp)

/-- entry of a mapped list at an in-bounds index; the defaults are
irrelevant there. -/
theorem getD_map {α β : Type} (f : α → β) (d : α) (d' : β) :
    ∀ (l : List α) (i : ℕ), i < l.length →
      (l.map f).getD i d' = f (l.getD i d)
  | _ :: _, 0, _ => rfl
  | _ :: l, i + 1, h => getD_map f d d' l i (Nat.lt_of_succ_lt_succ h)
  | [], i, h => absurd h (by simp)

/-- an in-bounds `getD` is a member of the list. -/
theorem getD_mem {α : Type} (d : α) :
    ∀ (l : List α) (i : ℕ), i < l.length → l.getD i d ∈ l
  | a :: l, 0, _ => List.mem_cons_self a l
  | a :: l, i + 1, h =>
      List.mem_cons_of_mem a (getD_mem d l i (Nat.lt_of_succ_lt_succ h))
  | [], i, h => absurd h (by simp)

/-- entry of the numpy combination `dr + c*dl` at an in-bounds index. -/
theorem vecCombo_entry (dr dl : List ℚ) (c : ℚ) (n : ℕ)
    (hdr : dr.length = n) (hdl : dl.length = n) (i : ℕ) (hi : i < n) :
    (vecAdd dr (vecSmul c dl)).getD i 0 = dr.getD i 0 + c * dl.getD i 0 := by
  simp only [vecAdd, vecSmul]
  rw [getD_zipWith (· + ·) 0 0 0 _ _ i (by omega)
    (by simp only [List.length_map]; omega)]
  rw [getD_map _ 0 0 _ i (by omega)]

/-- entry of the numpy combination `d2r + c*d2l + w*(dl ⊗ dl)` at an
in-bounds index pair, for matrices of matching shape. -/
theorem matCombo_entry (d2r d2l : List (List ℚ)) (dl : List ℚ) (c w : ℚ)
    (n : ℕ) (h2r : d2r.length = n) (h2l : d2l.length = n)
    (hdl : dl.length = n)
    (h2rrow : ∀ row ∈ d2r, row.length = n)
    (h2lrow : ∀ row ∈ d2l, row.length = n)
    (i j : ℕ) (hi : i < n) (hj : j < n) :
    ((matAdd (matAdd d2r (matSmul c d2l))
        (matSmul w (outerProduct dl dl))).getD i []).getD j 0 =
      (d2r.getD i []).getD j 0 + c * (d2l.getD i []).getD j 0 +
        w * (dl.getD i 0 * dl.getD j 0) := by
  have hArow : (matAdd d2r (matSmul c d2l)).getD i [] =
      vecAdd (d2r.getD i []) (vecSmul c (d2l.getD i [])) := by
    simp only [matAdd, matSmul]
    rw [getD_zipWith vecAdd [] [] [] _ _ i (by omega)
      (by simp only [List.length_map]; omega)]
    rw [getD_map _ [] [] _ i (by omega)]
  have hBrow : (matSmul w (outerProduct dl dl)).getD i [] =
      vecSmul w (dl.map (fun b => dl.getD i 0 * b)) := by
    simp only [matSmul, outerProduct]
    rw [getD_map (vecSmul w) [] [] _ i
      (by simp only [List.length_map]; omega)]
    rw [getD_map _ 0 [] dl i (by omega)]
  have hrow : (matAdd (matAdd d2r (matSmul c d2l))
      (matSmul w (outerProduct dl dl))).getD i [] =
      vecAdd (vecAdd (d2r.getD i []) (vecSmul c (d2l.getD i [])))
        (vecSmul w (dl.map (fun b => dl.getD i 0 * b))) := by
    show (List.zipWith vecAdd (matAdd d2r (matSmul c d2l))
      (matSmul w (outerProduct dl dl))).getD i [] = _
    rw [getD_zipWith vecAdd [] [] [] _ _ i
      (by simp only [matAdd, matSmul, List.length_zipWith, List.length_map]
          omega)
      (by simp only [matSmul, outerProduct, List.length_map]; omega)]
    rw [hArow, hBrow]
  rw [hrow]
  have hAlen : (d2r.getD i []).length = n :=
    h2rrow _ (getD_mem [] d2r i (by omega))
  have hBlen : (d2l.getD i []).length = n :=
    h2lrow _ (getD_mem [] d2l i (by omega))
  simp only [vecAdd, vecSmul]
  rw [getD_zipWith (· + ·) 0 0 0 _ _ j
    (by simp only [List.length_zipWith, List.length_map, hAlen, hBlen]; omega)
    (by simp only [List.length_map]; omega)]
  rw [getD_zipWith (· + ·) 0 0 0 _ _ j (by omega)
    (by simp only [List.length_map, hBlen]; omega)]
  rw [getD_map _ 0 0 _ j (by omega)]
  rw [getD_map _ 0 0 _ j (by simp only [List.length_map]; omega)]
  rw [getD_map _ 0 0 dl j (by omega)]

/-- whenever `qfm_label_constraint` returns, the returned state is the input
state with only the surface dofs overwritten by `x`. -/
theorem qfm_label_constraint_state (self : QfmSurface) (x : List ℚ) (d : ℕ)
    (r : EvalResult) (s' : QfmSurface)
    (h : self.qfm_label_constraint x d = .ok (r, s')) :
    s' = self.set_dofs x := by
  unfold QfmSurface.qfm_label_constraint at h
  split at h
  · split at h <;> exact (by cases h; rfl)
  · cases h

/-- whenever `qfm_objective` returns, the returned state is the input state
with only the surface dofs overwritten by `x`. -/
theorem qfm_objective_state (self : QfmSurface) (x : List ℚ) (d : ℕ)
    (r : EvalResult) (s' : QfmSurface)
    (h : self.qfm_objective x d = .ok (r, s')) :
    s' = self.set_dofs x := by
  unfold QfmSurface.qfm_objective at h
  split at h
  · split at h <;> exact (by cases h; rfl)
  · cases h

/-- whenever `qfm_penalty_constraints` returns, the returned state is the
input state with only the surface dofs overwritten by `x`. -/
theorem qfm_penalty_constraints_state (self : QfmSurface) (x : List ℚ)
    (d : ℕ) (w : ℚ) (r : EvalResult) (s' : QfmSurface)
    (h : self.qfm_penalty_constraints x d w = .ok (r, s')) :
    s' = self.set_dofs x := by
  unfold QfmSurface.qfm_penalty_constraints at h
  split at h
  · split at h
    · cases h; rfl
    · split at h <;> exact (by cases h; rfl)
  · cases h

/-- C1: for every dof vector `x`, `qfm_label_constraint(x, 0)` returns
`0.5*(label(x)-targetlabel)^2`, which is nonnegative; at derivative order 1
it additionally returns the gradient
`(label(x)-targetlabel) * d(label)/d(dofs)`. -/
theorem qfm_label_constraint_value_and_gradient (self : QfmSurface)
    (x : List ℚ) :
    self.qfm_label_constraint x 0 =
      .ok (.scalar ((1/2 : ℚ) * (self.label.J x - self.targetlabel) ^ 2),
        self.set_dofs x) ∧
    (∀ v s', self.qfm_label_constraint x 0 = .ok (.scalar v, s') → 0 ≤ v) ∧
    self.qfm_label_constraint x 1 =
      .ok (.withGrad ((1/2 : ℚ) * (self.label.J x - self.targetlabel) ^ 2)
        ((self.label.dJ_by_dsurfacecoefficients x).map
          (fun d => (self.label.J x - self.targetlabel) * d)),
        self.set_dofs x) := by
  refine ⟨rfl, ?_, rfl⟩
  intro v s' h
  simp only [QfmSurface.qfm_label_constraint, QfmSurface.set_dofs] at h
  norm_num at h
  obtain ⟨hv, -⟩ := h
  rw [← hv]
  positivity

/-- witness for C1 at a concrete orchestrator and dof vector. -/
theorem qfm_label_constraint_value_and_gradient_witness :
    (QfmSurface.mk ⟨fun _ => 0, fun _ => [], fun _ => []⟩ [1]
        ⟨fun s => s.headD 0, fun s => s.map (fun _ => 1), fun _ => []⟩
        2).qfm_label_constraint [3] 0 =
      .ok (.scalar ((1/2 : ℚ) * ((3 : ℚ) - 2) ^ 2),
        (QfmSurface.mk ⟨fun _ => 0, fun _ => [], fun _ => []⟩ [1]
          ⟨fun s => s.headD 0, fun s => s.map (fun _ => 1), fun _ => []⟩
          2).set_dofs [3]) ∧
    (0 : ℚ) ≤ (1/2 : ℚ) * ((3 : ℚ) - 2) ^ 2 := by
  refine ⟨?_, ?_⟩
  · have h := (qfm_label_constraint_value_and_gradient
      (QfmSurface.mk ⟨fun _ => 0, fun _ => [], fun _ => []⟩ [1]
        ⟨fun s => s.headD 0, fun s => s.map (fun _ => 1), fun _ => []⟩ 2)
      [3]).1
    simpa using h
  · exact (qfm_label_constraint_value_and_gradient
      (QfmSurface.mk ⟨fun _ => 0, fun _ => [], fun _ => []⟩ [1]
        ⟨fun s => s.headD 0, fun s => s.map (fun _ => 1), fun _ => []⟩ 2)
      [3]).2.1 _ _ rfl

/-- C3: for every dof vector `x` and every `w > 0`,
`qfm_penalty_constraints(x, 0, w)` equals
`qfm_objective(x, 0) + w * qfm_label_constraint(x, 0)`. -/
theorem qfm_penalty_is_objective_plus_weighted_label (self : QfmSurface)
    (x : List ℚ) (w : ℚ) (hw : 0 < w) :
    ∃ p o c s1 s2 s3,
      self.qfm_penalty_constraints x 0 w = .ok (.scalar p, s1) ∧
      self.qfm_objective x 0 = .ok (.scalar o, s2) ∧
      self.qfm_label_constraint x 0 = .ok (.scalar c, s3) ∧
      p = o + w * c := by
  refine ⟨_, _, _, _, _, _, rfl, rfl, rfl, ?_⟩
  ring

/-- witness for C3 at a concrete orchestrator, dof vector and weight. -/
theorem qfm_penalty_is_objective_plus_weighted_label_witness :
    (0 : ℚ) < 3 ∧
    ∃ p o c s1 s2 s3,
      (QfmSurface.mk ⟨fun s => s.headD 0 ^ 2, fun _ => [], fun _ => []⟩ []
        ⟨fun s => s.headD 0, fun _ => [], fun _ => []⟩
        1).qfm_penalty_constraints [2] 0 3 = .ok (.scalar p, s1) ∧
      (QfmSurface.mk ⟨fun s => s.headD 0 ^ 2, fun _ => [], fun _ => []⟩ []
        ⟨fun s => s.headD 0, fun _ => [], fun _ => []⟩
        1).qfm_objective [2] 0 = .ok (.scalar o, s2) ∧
      (QfmSurface.mk ⟨fun s => s.headD 0 ^ 2, fun _ => [], fun _ => []⟩ []
        ⟨fun s => s.headD 0, fun _ => [], fun _ => []⟩
        1).qfm_label_constraint [2] 0 = .ok (.scalar c, s3) ∧
      p = o + 3 * c :=
  ⟨by norm_num,
    qfm_penalty_is_objective_plus_weighted_label
      (QfmSurface.mk ⟨fun s => s.headD 0 ^ 2, fun _ => [], fun _ => []⟩ []
        ⟨fun s => s.headD 0, fun _ => [], fun _ => []⟩ 1)
      [2] 3 (by norm_num)⟩

/-- C7: a derivative order outside {0, 1} makes `qfm_label_constraint` and
`qfm_objective` fail fast with an assertion error, and a derivative order
outside {0, 1, 2} makes `qfm_penalty_constraints` fail fast; no result is
returned. -/
theorem invalid_derivative_order_fails_fast (self : QfmSurface)
    (x : List ℚ) (d : ℕ) (w : ℚ) :
    (d ≠ 0 → d ≠ 1 →
      self.qfm_label_constraint x d = .error "AssertionError" ∧
      self.qfm_objective x d = .error "AssertionError") ∧
    (d ≠ 0 → d ≠ 1 → d ≠ 2 →
      self.qfm_penalty_constraints x d w = .error "AssertionError") := by
  constructor
  · intro h0 h1
    constructor
    · simp [QfmSurface.qfm_label_constraint, h0, h1]
    · simp [QfmSurface.qfm_objective, h0, h1]
  · intro h0 h1 h2
    simp [QfmSurface.qfm_penalty_constraints, h0, h1, h2]

/-- witness for C7 at derivative order 3. -/
theorem invalid_derivative_order_fails_fast_witness :
    (QfmSurface.mk ⟨fun _ => 0, fun _ => [], fun _ => []⟩ []
      ⟨fun _ => 0, fun _ => [], fun _ => []⟩ 0).qfm_label_constraint [] 3 =
        .error "AssertionError" ∧
    (QfmSurface.mk ⟨fun _ => 0, fun _ => [], fun _ => []⟩ []
      ⟨fun _ => 0, fun _ => [], fun _ => []⟩ 0).qfm_objective [] 3 =
        .error "AssertionError" ∧
    (QfmSurface.mk ⟨fun _ => 0, fun _ => [], fun _ => []⟩ []
      ⟨fun _ => 0, fun _ => [], fun _ => []⟩ 0).qfm_penalty_constraints [] 3 1 =
        .error "AssertionError" := by
  have h := invalid_derivative_order_fails_fast
    (QfmSurface.mk ⟨fun _ => 0, fun _ => [], fun _ => []⟩ []
      ⟨fun _ => 0, fun _ => [], fun _ => []⟩ 0) [] 3 1
  exact ⟨(h.1 (by decide) (by decide)).1, (h.1 (by decide) (by decide)).2,
    h.2 (by decide) (by decide) (by decide)⟩

/-- C9: two orchestrators sharing the field model, surface and label
functional but holding different target labels return identical
`qfm_objective` results (value, and gradient when requested) for every dof
vector and derivative order: the pure objective never reads the target. -/
theorem qfm_objective_independent_of_targetlabel (bs : BiotSavart)
    (surf : List ℚ) (lab : LabelFunctional) (t1 t2 : ℚ) (x : List ℚ)
    (d : ℕ) :
    ((QfmSurface.mk bs surf lab t1).qfm_objective x d).map Prod.fst =
    ((QfmSurface.mk bs surf lab t2).qfm_objective x d).map Prod.fst := by
  by_cases h0 : d = 0
  · subst h0; rfl
  by_cases h1 : d = 1
  · subst h1; rfl
  · simp [QfmSurface.qfm_objective, h0, h1]

/-- C10: `qfm_penalty_constraints` never validates the constraint weight:
for every dof vector, every derivative order in {0, 1, 2} and every rational
weight — zero and negative included — it returns the result of the same
formulas. -/
theorem qfm_penalty_constraints_accepts_any_weight (self : QfmSurface)
    (x : List ℚ) (w : ℚ) :
    self.qfm_penalty_constraints x 0 w =
      .ok (.scalar (self.bs.J x +
        (1/2 : ℚ) * w * (self.label.J x - self.targetlabel) ^ 2),
        self.set_dofs x) ∧
    self.qfm_penalty_constraints x 1 w =
      .ok (.withGrad
        (self.bs.J x + (1/2 : ℚ) * w * (self.label.J x - self.targetlabel) ^ 2)
        (vecAdd (self.bs.dJ x)
          (vecSmul (w * (self.label.J x - self.targetlabel))
            (self.label.dJ_by_dsurfacecoefficients x))),
        self.set_dofs x) ∧
    self.qfm_penalty_constraints x 2 w =
      .ok (.withHess
        (self.bs.J x + (1/2 : ℚ) * w * (self.label.J x - self.targetlabel) ^ 2)
        (vecAdd (self.bs.dJ x)
          (vecSmul (w * (self.label.J x - self.targetlabel))
            (self.label.dJ_by_dsurfacecoefficients x)))
        (matAdd (matAdd (self.bs.d2J x)
          (matSmul (w * (self.label.J x - self.targetlabel))
            (self.label.d2J_by_dsurfacecoefficientsdsurfacecoefficients x)))
          (matSmul w (outerProduct (self.label.dJ_by_dsurfacecoefficients x)
            (self.label.dJ_by_dsurfacecoefficients x)))),
        self.set_dofs x) :=
  ⟨rfl, rfl, rfl⟩

/-- the order-1 penalty call always succeeds, returning exactly the pair the
L-BFGS-B closure hands to the solver. -/
theorem lbfgs_fun_spec (self : QfmSurface) (w : ℚ) (y : List ℚ) :
    self.qfm_penalty_constraints y 1 w =
      .ok (.withGrad (self.lbfgs_fun w y).1 (self.lbfgs_fun w y).2,
        self.set_dofs y) := rfl

/-- the order-1 objective call always succeeds, returning exactly the pair
the SLSQP objective closure hands to the solver. -/
theorem slsqp_fun_spec (self : QfmSurface) (y : List ℚ) :
    self.qfm_objective y 1 =
      .ok (.withGrad (self.slsqp_fun y).1 (self.slsqp_fun y).2,
        self.set_dofs y) := rfl

/-- C4 counterexample: the SLSQP equality-constraint closure does not return
the raw label deviation: at a state whose label evaluates to 4 against
target 0 it returns the squared penalty 8, not 4. -/
theorem slsqp_constraint_not_raw_deviation :
    stW.slsqp_con [4] = 8 ∧
    stW.label.J [4] - stW.targetlabel = 4 ∧
    stW.slsqp_con [4] ≠ stW.label.J [4] - stW.targetlabel := by
  refine ⟨?_, ?_, ?_⟩ <;>
    norm_num [stW, labW, QfmSurface.slsqp_con, QfmSurface.qfm_label_constraint,
      QfmSurface.set_dofs]

/-- C4 (amended): the equality-constraint closure handed to SLSQP returns
the value component of `qfm_label_constraint`, i.e. the squared penalty
`0.5*(label(x)-targetlabel)^2`, and its Jacobian closure returns the
corresponding gradient `(label(x)-targetlabel) * d(label)/d(dofs)`. -/
theorem slsqp_constraint_is_squared_penalty (self : QfmSurface)
    (x : List ℚ) :
    self.slsqp_con x =
      (1/2 : ℚ) * (self.label.J x - self.targetlabel) ^ 2 ∧
    self.slsqp_dcon x =
      vecSmul (self.label.J x - self.targetlabel)
        (self.label.dJ_by_dsurfacecoefficients x) := ⟨rfl, rfl⟩

/-- C6: every evaluation function writes `x` into the surface before reading
any derived quantity — its result does not depend on the dofs held before
the call — and at the moment it returns, the state equals the input state
with only the surface dofs overwritten by `x` (no other orchestrator state
is mutated). -/
theorem evaluation_functions_write_dofs_first (self : QfmSurface)
    (x y : List ℚ) (d : ℕ) (w : ℚ) :
    (∀ r s', self.qfm_label_constraint x d = .ok (r, s') →
      s' = self.set_dofs x) ∧
    (∀ r s', self.qfm_objective x d = .ok (r, s') →
      s' = self.set_dofs x) ∧
    (∀ r s', self.qfm_penalty_constraints x d w = .ok (r, s') →
      s' = self.set_dofs x) ∧
    self.qfm_label_constraint x d =
      (self.set_dofs y).qfm_label_constraint x d ∧
    self.qfm_objective x d = (self.set_dofs y).qfm_objective x d ∧
    self.qfm_penalty_constraints x d w =
      (self.set_dofs y).qfm_penalty_constraints x d w :=
  ⟨fun r s' h => qfm_label_constraint_state self x d r s' h,
    fun r s' h => qfm_objective_state self x d r s' h,
    fun r s' h => qfm_penalty_constraints_state self x d w r s' h,
    rfl, rfl, rfl⟩

/-- witness for C6: after evaluating at `[1]` from the state `stW` (whose
dofs are `[9]`), the returned state is `stW` with dofs `[1]` and nothing
else changed; and evaluating from a state with dofs overwritten to `[4]`
gives the same answer. -/
theorem evaluation_functions_write_dofs_first_witness :
    QfmSurface.mk bsW [1] labW 0 = stW.set_dofs [1] ∧
    stW.qfm_label_constraint [1] 0 =
      (stW.set_dofs [4]).qfm_label_constraint [1] 0 := by
  have h := evaluation_functions_write_dofs_first stW [1] [4] 0 1
  exact ⟨h.1 (.scalar ((1/2 : ℚ) * (stW.label.J [1] - stW.targetlabel) ^ 2))
    (QfmSurface.mk bsW [1] labW 0) rfl, h.2.2.2.1⟩

/-- C8: calling the same evaluator twice in succession with the same `x`
and no intervening mutation returns identical results on both calls. -/
theorem evaluators_idempotent (self : QfmSurface) (x : List ℚ) (d : ℕ)
    (w : ℚ) :
    (∀ r s', self.qfm_label_constraint x d = .ok (r, s') →
      s'.qfm_label_constraint x d = .ok (r, s')) ∧
    (∀ r s', self.qfm_objective x d = .ok (r, s') →
      s'.qfm_objective x d = .ok (r, s')) ∧
    (∀ r s', self.qfm_penalty_constraints x d w = .ok (r, s') →
      s'.qfm_penalty_constraints x d w = .ok (r, s')) := by
  refine ⟨?_, ?_, ?_⟩ <;> intro r s' h
  · have hs := qfm_label_constraint_state self x d r s' h
    subst hs
    exact h
  · have hs := qfm_objective_state self x d r s' h
    subst hs
    exact h
  · have hs := qfm_penalty_constraints_state self x d w r s' h
    subst hs
    exact h

/-- witness for C8: the second `qfm_label_constraint` call from the state
the first call left behind returns the same result. -/
theorem evaluators_idempotent_witness :
    (stW.set_dofs [1]).qfm_label_constraint [1] 0 =
      .ok (.scalar ((1/2 : ℚ) * (stW.label.J [1] - stW.targetlabel) ^ 2),
        stW.set_dofs [1]) :=
  (evaluators_idempotent stW [1] 0 1).1 _ _ rfl

/-- C5: after either solver driver returns, the surface's dof vector equals
the solver's final iterate `res.x`, the result record holds the same surface
under key `s`, the success flag is passed through unchanged, and — whenever
the solver's record is self-consistent (its `fun`/`jac` come from evaluating
the handed objective at `res.x`) — the returned `fun` and `gradient` are the
objective data at exactly the dofs the surface now holds. -/
theorem solver_drivers_sync_surface_with_result (self : QfmSurface) (w : ℚ)
    (solverU : (List ℚ → ℚ × List ℚ) → List ℚ → OptResult)
    (solverC : (List ℚ → ℚ × List ℚ) → (List ℚ → ℚ) → (List ℚ → List ℚ) →
      List ℚ → OptResult)
    (hU : ∀ f x0, ((solverU f x0).funv, (solverU f x0).jac) =
      f (solverU f x0).x)
    (hC : ∀ f c dc x0, ((solverC f c dc x0).funv, (solverC f c dc x0).jac) =
      f (solverC f c dc x0).x) :
    ((self.minimize_qfm_penalty_constraints_LBFGS solverU w).2.surface =
        (self.minimize_qfm_penalty_constraints_LBFGS solverU w).1.info.x ∧
      (self.minimize_qfm_penalty_constraints_LBFGS solverU w).1.s =
        (self.minimize_qfm_penalty_constraints_LBFGS solverU w).2.surface ∧
      (self.minimize_qfm_penalty_constraints_LBFGS solverU w).1.success =
        (self.minimize_qfm_penalty_constraints_LBFGS solverU w).1.info.success ∧
      self.qfm_penalty_constraints
          (self.minimize_qfm_penalty_constraints_LBFGS solverU w).2.surface 1 w =
        .ok (.withGrad
            (self.minimize_qfm_penalty_constraints_LBFGS solverU w).1.funv
            (self.minimize_qfm_penalty_constraints_LBFGS solverU w).1.gradient,
          self.set_dofs
            (self.minimize_qfm_penalty_constraints_LBFGS solverU w).2.surface)) ∧
    ((self.minimize_qfm_exact_constraints_SLSQP solverC).2.surface =
        (self.minimize_qfm_exact_constraints_SLSQP solverC).1.info.x ∧
      (self.minimize_qfm_exact_constraints_SLSQP solverC).1.s =
        (self.minimize_qfm_exact_constraints_SLSQP solverC).2.surface ∧
      (self.minimize_qfm_exact_constraints_SLSQP solverC).1.success =
        (self.minimize_qfm_exact_constraints_SLSQP solverC).1.info.success ∧
      self.qfm_objective
          (self.minimize_qfm_exact_constraints_SLSQP solverC).2.surface 1 =
        .ok (.withGrad
            (self.minimize_qfm_exact_constraints_SLSQP solverC).1.funv
            (self.minimize_qfm_exact_constraints_SLSQP solverC).1.gradient,
          self.set_dofs
            (self.minimize_qfm_exact_constraints_SLSQP solverC).2.surface)) := by
  constructor
  · refine ⟨rfl, rfl, rfl, ?_⟩
    have h1 : (solverU (self.lbfgs_fun w) self.surface).funv =
        (self.lbfgs_fun w (solverU (self.lbfgs_fun w) self.surface).x).1 :=
      congrArg Prod.fst (hU (self.lbfgs_fun w) self.surface)
    have h2 : (solverU (self.lbfgs_fun w) self.surface).jac =
        (self.lbfgs_fun w (solverU (self.lbfgs_fun w) self.surface).x).2 :=
      congrArg Prod.snd (hU (self.lbfgs_fun w) self.surface)
    show self.qfm_penalty_constraints
        (solverU (self.lbfgs_fun w) self.surface).x 1 w =
      .ok (.withGrad (solverU (self.lbfgs_fun w) self.surface).funv
          (solverU (self.lbfgs_fun w) self.surface).jac,
        self.set_dofs (solverU (self.lbfgs_fun w) self.surface).x)
    rw [h1, h2]
    exact lbfgs_fun_spec self w (solverU (self.lbfgs_fun w) self.surface).x
  · refine ⟨rfl, rfl, rfl, ?_⟩
    have h1 : (solverC self.slsqp_fun self.slsqp_con self.slsqp_dcon
        self.surface).funv =
        (self.slsqp_fun (solverC self.slsqp_fun self.slsqp_con self.slsqp_dcon
          self.surface).x).1 :=
      congrArg Prod.fst (hC self.slsqp_fun self.slsqp_con self.slsqp_dcon
        self.surface)
    have h2 : (solverC self.slsqp_fun self.slsqp_con self.slsqp_dcon
        self.surface).jac =
        (self.slsqp_fun (solverC self.slsqp_fun self.slsqp_con self.slsqp_dcon
          self.surface).x).2 :=
      congrArg Prod.snd (hC self.slsqp_fun self.slsqp_con self.slsqp_dcon
        self.surface)
    show self.qfm_objective
        (solverC self.slsqp_fun self.slsqp_con self.slsqp_dcon self.surface).x 1 =
      .ok (.withGrad
          (solverC self.slsqp_fun self.slsqp_con self.slsqp_dcon
            self.surface).funv
          (solverC self.slsqp_fun self.slsqp_con self.slsqp_dcon
            self.surface).jac,
        self.set_dofs
          (solverC self.slsqp_fun self.slsqp_con self.slsqp_dcon
            self.surface).x)
    rw [h1, h2]
    exact slsqp_fun_spec self
      (solverC self.slsqp_fun self.slsqp_con self.slsqp_dcon self.surface).x

/-- witness for C5: a concrete solver that returns its starting point with
`success = false` still leaves the surface at the returned iterate, with the
record's `fun`/`gradient` matching an evaluation at those dofs. -/
theorem solver_drivers_sync_surface_with_result_witness :
    (stW.minimize_qfm_penalty_constraints_LBFGS solverU0 1).2.surface =
      (stW.minimize_qfm_penalty_constraints_LBFGS solverU0 1).1.info.x ∧
    stW.qfm_penalty_constraints
        (stW.minimize_qfm_penalty_constraints_LBFGS solverU0 1).2.surface 1 1 =
      .ok (.withGrad
          (stW.minimize_qfm_penalty_constraints_LBFGS solverU0 1).1.funv
          (stW.minimize_qfm_penalty_constraints_LBFGS solverU0 1).1.gradient,
        stW.set_dofs
          (stW.minimize_qfm_penalty_constraints_LBFGS solverU0 1).2.surface) ∧
    (stW.minimize_qfm_exact_constraints_SLSQP solverC0).2.surface =
      (stW.minimize_qfm_exact_constraints_SLSQP solverC0).1.info.x := by
  have h := solver_drivers_sync_surface_with_result stW 1 solverU0 solverC0
    (fun f x0 => rfl) (fun f c dc x0 => rfl)
  exact ⟨h.1.1, h.1.2.2.2, h.2.1⟩

/-- C2: for every dof vector `x` and positive weight `w`, the order-1
penalty call returns the gradient whose i-th entry is `dr_i + w*rl*dl_i`,
and the order-2 call additionally returns — besides the same value and
gradient — the Hessian whose (i,j) entry is
`d2r_ij + w*rl*d2l_ij + w*dl_i*dl_j`, with no further cross terms. -/
theorem qfm_penalty_gradient_hessian_entries (self : QfmSurface)
    (x : List ℚ) (w : ℚ) (hw : 0 < w)
    (hdl : (self.label.dJ_by_dsurfacecoefficients x).length =
      (self.bs.dJ x).length)
    (h2r : (self.bs.d2J x).length = (self.bs.dJ x).length)
    (h2l : (self.label.d2J_by_dsurfacecoefficientsdsurfacecoefficients
      x).length = (self.bs.dJ x).length)
    (h2rrow : ∀ row ∈ self.bs.d2J x,
      row.length = (self.bs.dJ x).length)
    (h2lrow : ∀ row ∈
      self.label.d2J_by_dsurfacecoefficientsdsurfacecoefficients x,
      row.length = (self.bs.dJ x).length) :
    (∀ v g s', self.qfm_penalty_constraints x 1 w = .ok (.withGrad v g, s') →
      g.length = (self.bs.dJ x).length ∧
      ∀ i, i < (self.bs.dJ x).length →
        g.getD i 0 = (self.bs.dJ x).getD i 0 +
          w * (self.label.J x - self.targetlabel) *
            (self.label.dJ_by_dsurfacecoefficients x).getD i 0) ∧
    (∀ v g H s',
      self.qfm_penalty_constraints x 2 w = .ok (.withHess v g H, s') →
      self.qfm_penalty_constraints x 1 w =
        .ok (.withGrad v g, self.set_dofs x) ∧
      H.length = (self.bs.dJ x).length ∧
      ∀ i j, i < (self.bs.dJ x).length → j < (self.bs.dJ x).length →
        (H.getD i []).getD j 0 =
          ((self.bs.d2J x).getD i []).getD j 0 +
          w * (self.label.J x - self.targetlabel) *
            ((self.label.d2J_by_dsurfacecoefficientsdsurfacecoefficients
              x).getD i []).getD j 0 +
          w * ((self.label.dJ_by_dsurfacecoefficients x).getD i 0 *
            (self.label.dJ_by_dsurfacecoefficients x).getD j 0)) := by
  have e1 : self.qfm_penalty_constraints x 1 w =
      .ok (.withGrad
        (self.bs.J x +
          (1/2 : ℚ) * w * (self.label.J x - self.targetlabel) ^ 2)
        (vecAdd (self.bs.dJ x)
          (vecSmul (w * (self.label.J x - self.targetlabel))
            (self.label.dJ_by_dsurfacecoefficients x))),
        self.set_dofs x) := rfl
  have e2 : self.qfm_penalty_constraints x 2 w =
      .ok (.withHess
        (self.bs.J x +
          (1/2 : ℚ) * w * (self.label.J x - self.targetlabel) ^ 2)
        (vecAdd (self.bs.dJ x)
          (vecSmul (w * (self.label.J x - self.targetlabel))
            (self.label.dJ_by_dsurfacecoefficients x)))
        (matAdd (matAdd (self.bs.d2J x)
          (matSmul (w * (self.label.J x - self.targetlabel))
            (self.label.d2J_by_dsurfacecoefficientsdsurfacecoefficients x)))
          (matSmul w (outerProduct
            (self.label.dJ_by_dsurfacecoefficients x)
            (self.label.dJ_by_dsurfacecoefficients x)))),
        self.set_dofs x) := rfl
  constructor
  · intro v g s' h
    rw [e1] at h
    simp only [Except.ok.injEq, Prod.mk.injEq, EvalResult.withGrad.injEq]
      at h
    obtain ⟨⟨hv, hg⟩, hs⟩ := h
    subst hg
    constructor
    · simp [vecAdd, vecSmul, hdl]
    · intro i hi
      exact vecCombo_entry (self.bs.dJ x)
        (self.label.dJ_by_dsurfacecoefficients x)
        (w * (self.label.J x - self.targetlabel))
        (self.bs.dJ x).length rfl hdl i hi
  · intro v g H s' h
    rw [e2] at h
    simp only [Except.ok.injEq, Prod.mk.injEq, EvalResult.withHess.injEq]
      at h
    obtain ⟨⟨hv, hg, hH⟩, hs⟩ := h
    subst hv
    subst hg
    subst hH
    refine ⟨e1, ?_, ?_⟩
    · simp [matAdd, matSmul, outerProduct, h2r, h2l, hdl]
    · intro i j hi hj
      exact matCombo_entry (self.bs.d2J x)
        (self.label.d2J_by_dsurfacecoefficientsdsurfacecoefficients x)
        (self.label.dJ_by_dsurfacecoefficients x)
        (w * (self.label.J x - self.targetlabel)) w
        (self.bs.dJ x).length h2r h2l hdl h2rrow h2lrow i j hi hj

/-- witness for C2 at a concrete one-dof orchestrator: the gradient entry
and the Hessian entry equal the claimed combinations of the collaborators'
derivative data. -/
theorem qfm_penalty_gradient_hessian_entries_witness :
    ((vecAdd (stW.bs.dJ [1])
        (vecSmul (2 * (stW.label.J [1] - stW.targetlabel))
          (stW.label.dJ_by_dsurfacecoefficients [1]))).getD 0 0 =
      (stW.bs.dJ [1]).getD 0 0 +
        2 * (stW.label.J [1] - stW.targetlabel) *
          (stW.label.dJ_by_dsurfacecoefficients [1]).getD 0 0) ∧
    (((matAdd (matAdd (stW.bs.d2J [1])
          (matSmul (2 * (stW.label.J [1] - stW.targetlabel))
            (stW.label.d2J_by_dsurfacecoefficientsdsurfacecoefficients
              [1])))
        (matSmul 2 (outerProduct
          (stW.label.dJ_by_dsurfacecoefficients [1])
          (stW.label.dJ_by_dsurfacecoefficients [1])))).getD 0 []).getD 0 0 =
      ((stW.bs.d2J [1]).getD 0 []).getD 0 0 +
        2 * (stW.label.J [1] - stW.targetlabel) *
          ((stW.label.d2J_by_dsurfacecoefficientsdsurfacecoefficients
            [1]).getD 0 []).getD 0 0 +
        2 * ((stW.label.dJ_by_dsurfacecoefficients [1]).getD 0 0 *
          (stW.label.dJ_by_dsurfacecoefficients [1]).getD 0 0)) := by
  have h := qfm_penalty_gradient_hessian_entries stW [1] 2 (by norm_num)
    rfl rfl rfl
    (by intro row hr; simp only [stW, bsW, List.mem_singleton] at hr
        subst hr; rfl)
    (by intro row hr; simp only [stW, labW, List.mem_singleton] at hr
        subst hr; rfl)
  exact ⟨(h.1 _ _ _ rfl).2 0 (by simp [stW, bsW]),
    ((h.2 _ _ _ _ rfl).2.2 0 0 (by simp [stW, bsW]) (by simp [stW, bsW]))⟩
